import Mathlib

/-!
Verification of the multi-scale eigenvalue bone-enhancement engine.

The definitions below are shallow embeddings of the per-voxel functors,
the parameter-estimation reductions and the scale combiner of the
ITKBoneEnhancement repository.  Machine doubles are modelled as real
numbers; image regions are modelled as lists of (point, eigenvalue
triple) pairs; spatial-object masks become optional boolean predicates
on points, label-image masks become optional label functions together
with a background label.
-/

/-- Machine epsilon for IEEE doubles, the value of the itk Math eps
constant used by both measure functors as a division guard. -/
noncomputable def itkEps : ℝ := 1 / 2 ^ 52

/-- Lowest finite IEEE double, the value of NumericTraits
NonpositiveMin used to seed the running maximum of the Descoteaux
parameter-estimation filter. -/
noncomputable def nonpositiveMin : ℝ := -(2 ^ 1024 - 2 ^ 971)

/-- The itk Math sqrt2 constant. -/
noncomputable def sqrt2 : ℝ := Real.sqrt 2

/-- Functor MaximumAbsoluteValue from itkMaximumAbsoluteValueImageFilter.h:
return A when the absolute value of A strictly exceeds the absolute value
of B, otherwise return B.  The C++ functor is templated over any ordered
pixel type, so the embedding is generic over a linear ordered ring. -/
def maximumAbsoluteValue {R : Type} [LinearOrderedRing R] (A B : R) : R :=
  if |A| > |B| then A else B

/-- ProcessPixel of DescoteauxEigenToMeasureImageFilter (identical to the
functor in itkDescoteauxEigenToScalarFunctorImageFilter.h): the sheet-blob-
noise sheetness measure of one eigenvalue triple. -/
noncomputable def descoteauxProcessPixel (direction alpha beta c a1 a2 a3 : ℝ) : ℝ :=
  let l1 := |a1|
  let l2 := |a2|
  let l3 := |a3|
  if direction * a3 < 0 then 0
  else if l3 < itkEps then 0
  else
    let Rsheet := l2 / l3
    let Rblob := |2 * l3 - l2 - l1| / l3
    let Rnoise := Real.sqrt (l1 * l1 + l2 * l2 + l3 * l3)
    Real.exp (-(Rsheet * Rsheet) / (2 * alpha * alpha)) *
      (1 - Real.exp (-(Rblob * Rblob) / (2 * beta * beta))) *
      (1 - Real.exp (-(Rnoise * Rnoise) / (2 * c * c)))

/-- ProcessPixel of KrcahEigenToMeasureImageFilter (identical to the functor
in the KrcahEigenToScalarFunctor header): the sheet-tube-noise sheetness
measure of one eigenvalue triple. -/
noncomputable def krcahProcessPixel (direction alpha beta gamma a1 a2 a3 : ℝ) : ℝ :=
  let l1 := |a1|
  let l2 := |a2|
  let l3 := |a3|
  if l3 < itkEps ∨ l2 < itkEps then 0
  else
    let Rsheet := l2 / l3
    let Rnoise := l1 + l2 + l3
    let Rtube := l1 / (l2 * l3)
    direction * a3 / l3 *
      Real.exp (-(Rsheet * Rsheet) / (alpha * alpha)) *
      Real.exp (-(Rtube * Rtube) / (beta * beta)) *
      (1 - Real.exp (-(Rnoise * Rnoise) / (gamma * gamma)))

/-- Spatial-object mask test of the EigenToMeasure filters: a voxel is
processed when no mask is set or its physical point is inside the mask. -/
def spatialIncluded {P : Type} (mask : Option (P → Bool)) (point : P) : Bool :=
  match mask with
  | none => true
  | some isInside => isInside point

/-- Label-image mask test of the deprecated EigenToScalar estimation
filter: a voxel is counted when no mask image is set or its mask label
differs from the background value. -/
def labelIncluded {P L : Type} [DecidableEq L] (mask : Option (P → L)) (background : L)
    (point : P) : Bool :=
  match mask with
  | none => true
  | some label => label point ≠ background

/-- ThreadedGenerateData of DescoteauxEigenToMeasureImageFilter: every voxel
inside the mask (or every voxel, when no mask is set) receives ProcessPixel
of its eigenvalues; every other voxel receives zero. -/
noncomputable def descoteauxMeasureImage {P : Type} (direction alpha beta c : ℝ)
    (mask : Option (P → Bool)) (voxels : List (P × (ℝ × ℝ × ℝ))) : List ℝ :=
  voxels.map fun v =>
    if spatialIncluded mask v.1 then
      descoteauxProcessPixel direction alpha beta c v.2.1 v.2.2.1 v.2.2.2
    else 0

/-- DynamicThreadedGenerateData of KrcahEigenToMeasureImageFilter: same
masking scheme as the Descoteaux measure filter, with the Krcah formula. -/
noncomputable def krcahMeasureImage {P : Type} (direction alpha beta gamma : ℝ)
    (mask : Option (P → Bool)) (voxels : List (P × (ℝ × ℝ × ℝ))) : List ℝ :=
  voxels.map fun v =>
    if spatialIncluded mask v.1 then
      krcahProcessPixel direction alpha beta gamma v.2.1 v.2.2.1 v.2.2.2
    else 0

/-- CalculateFrobeniusNorm of the Descoteaux estimation filters: square root
of the sum of the squared eigenvalues. -/
noncomputable def frobeniusNorm (pixel : ℝ × ℝ × ℝ) : ℝ :=
  Real.sqrt (pixel.1 * pixel.1 + pixel.2.1 * pixel.2.1 + pixel.2.2 * pixel.2.2)

/-- DynamicThreadedGenerateData of
DescoteauxEigenToMeasureParameterEstimationFilter: running maximum of the
Frobenius norms of the included voxels, seeded with NonpositiveMin. -/
noncomputable def descoteauxMaxFrobeniusNorm {P : Type} (mask : Option (P → Bool))
    (voxels : List (P × (ℝ × ℝ × ℝ))) : ℝ :=
  voxels.foldl
    (fun m v => if spatialIncluded mask v.1 then max m (frobeniusNorm v.2) else m)
    nonpositiveMin

/-- AfterThreadedGenerateData of
DescoteauxEigenToMeasureParameterEstimationFilter: alpha and beta are fixed
at one half, c starts at zero and becomes the weighted maximum norm only
when that maximum is positive. -/
noncomputable def descoteauxEstimateParameters {P : Type} (weight : ℝ)
    (mask : Option (P → Bool)) (voxels : List (P × (ℝ × ℝ × ℝ))) : ℝ × ℝ × ℝ :=
  let m := descoteauxMaxFrobeniusNorm mask voxels
  (0.5, 0.5, if m > 0 then weight * m else 0)

/-- ThreadedGenerateData of the deprecated
DescoteauxEigenToScalarParameterEstimationImageFilter: running maximum of
the Frobenius norms of the voxels whose mask label is not background,
seeded with zero. -/
noncomputable def descoteauxScalarMaxFrobeniusNorm {P L : Type} [DecidableEq L]
    (mask : Option (P → L)) (background : L)
    (voxels : List (P × (ℝ × ℝ × ℝ))) : ℝ :=
  voxels.foldl
    (fun m v =>
      if labelIncluded mask background v.1 then
        if frobeniusNorm v.2 > m then frobeniusNorm v.2 else m
      else m)
    0

/-- AfterThreadedGenerateData of the deprecated
DescoteauxEigenToScalarParameterEstimationImageFilter: c starts at the
Frobenius weight itself and is multiplied by the maximum norm only when
that maximum is positive. -/
noncomputable def descoteauxScalarEstimateParameters {P L : Type} [DecidableEq L]
    (weight : ℝ) (mask : Option (P → L)) (background : L)
    (voxels : List (P × (ℝ × ℝ × ℝ))) : ℝ × ℝ × ℝ :=
  let m := descoteauxScalarMaxFrobeniusNorm mask background voxels
  (0.5, 0.5, if m > 0 then weight * m else weight)

/-- Parameter-set switch of KrcahEigenToMeasureParameterEstimationFilter. -/
inductive KrcahParameterSet : Type
  | useImplementationParameters : KrcahParameterSet
  | useJournalParameters : KrcahParameterSet
deriving DecidableEq

/-- CalculateTraceAccordingToImplementation: sum of the absolute values of
the eigenvalues. -/
noncomputable def calculateTraceAccordingToImplementation (pixel : ℝ × ℝ × ℝ) : ℝ :=
  |pixel.1| + |pixel.2.1| + |pixel.2.2|

/-- CalculateTraceAccordingToJournalArticle: signed sum of the
eigenvalues. -/
noncomputable def calculateTraceAccordingToJournalArticle (pixel : ℝ × ℝ × ℝ) : ℝ :=
  pixel.1 + pixel.2.1 + pixel.2.2

/-- Per-voxel trace function selected by the parameter set, as dispatched in
DynamicThreadedGenerateData of KrcahEigenToMeasureParameterEstimationFilter. -/
noncomputable def krcahTraceFunction (parameterSet : KrcahParameterSet) :
    (ℝ × ℝ × ℝ) → ℝ :=
  match parameterSet with
  | .useImplementationParameters => calculateTraceAccordingToImplementation
  | .useJournalParameters => calculateTraceAccordingToJournalArticle

/-- DynamicThreadedGenerateData of
KrcahEigenToMeasureParameterEstimationFilter: accumulated trace and voxel
count over the included voxels. -/
noncomputable def krcahAccumulateTrace {P : Type} (parameterSet : KrcahParameterSet)
    (mask : Option (P → Bool)) (voxels : List (P × (ℝ × ℝ × ℝ))) : ℝ × ℝ :=
  voxels.foldl
    (fun ac v =>
      if spatialIncluded mask v.1 then
        (ac.1 + krcahTraceFunction parameterSet v.2, ac.2 + 1)
      else ac)
    (0, 0)

/-- AfterThreadedGenerateData of
KrcahEigenToMeasureParameterEstimationFilter: mode-dependent base
parameters, with gamma scaled by the average trace when any voxel was
counted and zeroed otherwise. -/
noncomputable def krcahEstimateParameters {P : Type} (parameterSet : KrcahParameterSet)
    (mask : Option (P → Bool)) (voxels : List (P × (ℝ × ℝ × ℝ))) : ℝ × ℝ × ℝ :=
  let base : ℝ × ℝ × ℝ :=
    match parameterSet with
    | .useImplementationParameters => (sqrt2 * 0.5, sqrt2 * 0.5, sqrt2 * 0.5)
    | .useJournalParameters => (0.5, 0.5, 0.25)
  let accum := (krcahAccumulateTrace parameterSet mask voxels).1
  let count := (krcahAccumulateTrace parameterSet mask voxels).2
  (base.1, base.2.1, if count > 0 then base.2.2 * (accum / count) else 0)

/-- Error raised by the static sigma-array generators. -/
inductive ItkError : Type
  | invalidArgument : ItkError
deriving DecidableEq

/-- Step-method switch of MultiScaleHessianEnhancementImageFilter. -/
inductive SigmaStepMethod : Type
  | equispacedSteps : SigmaStepMethod
  | logarithmicSteps : SigmaStepMethod
deriving DecidableEq

/-- Modelled from the spec: the body of
MultiScaleHessianEnhancementImageFilter GenerateSigmaArray is declared in
the repository headers and exercised by the static-methods test, but its
definition file is not present.  Following sections 4.1 and 8 of the spec
and the expectations of the in-repo test, a zero-step request raises
InvalidArgument, equal bounds collapse to the single-element schedule,
reversed bounds are swapped, and otherwise the steps are interpolated
linearly or geometrically between the bounds inclusive. -/
noncomputable def generateSigmaArray (sigmaMinimum sigmaMaximum : ℝ)
    (numberOfSigmaSteps : ℕ) (method : SigmaStepMethod) : Except ItkError (List ℝ) :=
  if numberOfSigmaSteps = 0 then .error .invalidArgument
  else if sigmaMinimum = sigmaMaximum then .ok [sigmaMinimum]
  else
    let lo := min sigmaMinimum sigmaMaximum
    let hi := max sigmaMinimum sigmaMaximum
    .ok ((List.range numberOfSigmaSteps).map fun i =>
      match method with
      | .equispacedSteps =>
          lo + i * ((hi - lo) / ((numberOfSigmaSteps : ℝ) - 1))
      | .logarithmicSteps =>
          Real.exp (Real.log lo +
            i * ((Real.log hi - Real.log lo) / ((numberOfSigmaSteps : ℝ) - 1))))

/-- Modelled from the spec: the equispaced static generator dispatches to
GenerateSigmaArray with the equispaced step method. -/
noncomputable def generateEquispacedSigmaArray (sigmaMinimum sigmaMaximum : ℝ)
    (numberOfSigmaSteps : ℕ) : Except ItkError (List ℝ) :=
  generateSigmaArray sigmaMinimum sigmaMaximum numberOfSigmaSteps .equispacedSteps

/-- Modelled from the spec: the logarithmic static generator dispatches to
GenerateSigmaArray with the logarithmic step method. -/
noncomputable def generateLogarithmicSigmaArray (sigmaMinimum sigmaMaximum : ℝ)
    (numberOfSigmaSteps : ℕ) : Except ItkError (List ℝ) :=
  generateSigmaArray sigmaMinimum sigmaMaximum numberOfSigmaSteps .logarithmicSteps

/-! Helper lemmas about folds used by the estimation filters. -/

theorem nonpositiveMin_neg : nonpositiveMin < 0 := by
  unfold nonpositiveMin
  norm_num

theorem itkEps_pos : 0 < itkEps := by
  unfold itkEps
  norm_num

theorem ite_gt_eq_max (m x : ℝ) : (if x > m then x else m) = max m x := by
  rcases le_or_lt x m with h | h
  · rw [if_neg (not_lt.mpr h), max_eq_left h]
  · rw [if_pos h, max_eq_right h.le]

theorem foldr_max_shift (a x : ℝ) (t : List ℝ) :
    t.foldr max (max a x) = max x (t.foldr max a) := by
  induction t with
  | nil => exact max_comm a x
  | cons y s ih => rw [List.foldr_cons, ih, List.foldr_cons, max_left_comm]

theorem foldl_max_eq_foldr (xs : List ℝ) (a : ℝ) : xs.foldl max a = xs.foldr max a := by
  induction xs generalizing a with
  | nil => rfl
  | cons x t ih => rw [List.foldl_cons, ih, List.foldr_cons, foldr_max_shift]

theorem le_foldr_max (b : ℝ) (xs : List ℝ) : b ≤ xs.foldr max b := by
  induction xs with
  | nil => exact le_refl b
  | cons x t ih => exact ih.trans (le_max_right x _)

theorem foldr_max_base_change :
    ∀ (xs : List ℝ) (a b : ℝ), xs ≠ [] → (∀ x ∈ xs, a ≤ x) → (∀ x ∈ xs, b ≤ x) →
      xs.foldr max a = xs.foldr max b
  | [], _, _, hne, _, _ => absurd rfl hne
  | [x], a, b, _, ha, hb => by
      simp only [List.foldr]
      rw [max_eq_left (ha x (by simp)), max_eq_left (hb x (by simp))]
  | x :: y :: s, a, b, _, ha, hb => by
      have h := foldr_max_base_change (y :: s) a b (by simp)
        (fun z hz => ha z (List.mem_cons_of_mem x hz))
        (fun z hz => hb z (List.mem_cons_of_mem x hz))
      simp only [List.foldr_cons] at h ⊢
      rw [h]

theorem foldl_guarded_max {A : Type} (p : A → Bool) (f : A → ℝ) (xs : List A) (a : ℝ) :
    xs.foldl (fun m v => if p v then max m (f v) else m) a
      = ((xs.filter p).map f).foldl max a := by
  induction xs generalizing a with
  | nil => rfl
  | cons x t ih =>
    rw [List.foldl_cons]
    by_cases h : p x = true
    · rw [if_pos h, ih, List.filter_cons, if_pos h, List.map_cons, List.foldl_cons]
    · rw [if_neg h, ih, List.filter_cons, if_neg h]

theorem foldl_guarded_if_max {A : Type} (p : A → Bool) (f : A → ℝ) (xs : List A) (a : ℝ) :
    xs.foldl (fun m v => if p v then (if f v > m then f v else m) else m) a
      = ((xs.filter p).map f).foldl max a := by
  have h : (fun (m : ℝ) v => if p v then (if f v > m then f v else m) else m)
      = fun (m : ℝ) v => if p v then max m (f v) else m := by
    funext m v
    rw [ite_gt_eq_max]
  rw [h, foldl_guarded_max]

theorem foldl_guarded_sum_count {A : Type} (p : A → Bool) (f : A → ℝ) (xs : List A)
    (ac : ℝ × ℝ) :
    xs.foldl (fun ac v => if p v then (ac.1 + f v, ac.2 + 1) else ac) ac
      = (ac.1 + ((xs.filter p).map f).sum, ac.2 + ((xs.filter p).length : ℝ)) := by
  induction xs generalizing ac with
  | nil => simp
  | cons x t ih =>
    rw [List.foldl_cons]
    by_cases h : p x = true
    · rw [if_pos h, ih, List.filter_cons, if_pos h]
      simp only [List.map_cons, List.sum_cons, List.length_cons, Nat.cast_add,
        Nat.cast_one, Prod.mk.injEq]
      constructor <;> ring
    · rw [if_neg h, ih, List.filter_cons, if_neg h]

/-! Claims about the ScaleCombiner functor. -/

/-- Claim C7, counterexample: the combiner is not commutative, because a
tie in absolute magnitude keeps the second operand, so swapping the
operands of the pair (1, -1) changes the result. -/
theorem maximumAbsoluteValue_not_commutative :
    maximumAbsoluteValue (1 : ℝ) (-1) ≠ maximumAbsoluteValue (-1 : ℝ) 1 := by
  unfold maximumAbsoluteValue
  rw [if_neg (by rw [abs_neg]; exact lt_irrefl _),
    if_neg (by rw [abs_neg]; exact lt_irrefl _)]
  norm_num

/-- Claim C7 (amended): the voxel-wise combiner is associative for all
pixel values, and it is commutative whenever the two operands differ in
absolute magnitude; on ties of absolute magnitude it keeps the second
operand, so exact commutativity fails there. -/
theorem maximumAbsoluteValue_assoc_and_comm_off_ties (a b c : ℝ) :
    maximumAbsoluteValue (maximumAbsoluteValue a b) c
        = maximumAbsoluteValue a (maximumAbsoluteValue b c) ∧
      (|a| ≠ |b| → maximumAbsoluteValue a b = maximumAbsoluteValue b a) := by
  constructor
  · unfold maximumAbsoluteValue
    by_cases hab : |b| < |a|
    · rw [if_pos hab]
      by_cases hbc : |c| < |b|
      · rw [if_pos hbc, if_pos hab, if_pos (hbc.trans hab)]
      · rw [if_neg hbc]
    · rw [if_neg hab]
      by_cases hbc : |c| < |b|
      · rw [if_pos hbc, if_neg hab]
      · rw [if_neg hbc,
          if_neg (fun h : |c| < |a| => hbc (lt_of_lt_of_le h (not_lt.mp hab)))]
  · intro hne
    unfold maximumAbsoluteValue
    rcases lt_or_gt_of_ne hne with h | h
    · rw [if_neg (not_lt.mpr h.le), if_pos h]
    · rw [if_pos h, if_neg (not_lt.mpr h.le)]

/-- Witness for the amended claim C7 at the concrete triple (2, 1, 0). -/
theorem maximumAbsoluteValue_assoc_and_comm_off_ties_witness :
    maximumAbsoluteValue (maximumAbsoluteValue (2 : ℝ) 1) 0
        = maximumAbsoluteValue (2 : ℝ) (maximumAbsoluteValue 1 0) ∧
      maximumAbsoluteValue (2 : ℝ) 1 = maximumAbsoluteValue 1 2 :=
  ⟨(maximumAbsoluteValue_assoc_and_comm_off_ties 2 1 0).1,
   (maximumAbsoluteValue_assoc_and_comm_off_ties 2 1 0).2
     (by rw [abs_two, abs_one]; norm_num)⟩

/-- Claim C9: on a tie of absolute magnitudes the combiner returns the
second operand, the first operand is returned only when its absolute value
strictly exceeds that of the second, and in particular combining 1 with -1
gives -1 while combining -1 with 1 gives 1. -/
theorem maximumAbsoluteValue_ties_take_second (A B : ℝ) :
    (|A| = |B| → maximumAbsoluteValue A B = B) ∧
      (|A| ≤ |B| → maximumAbsoluteValue A B = B) ∧
      (|B| < |A| → maximumAbsoluteValue A B = A) ∧
      maximumAbsoluteValue (1 : ℝ) (-1) = -1 ∧
      maximumAbsoluteValue (-1 : ℝ) 1 = 1 := by
  refine ⟨fun h => ?_, fun h => ?_, fun h => ?_, ?_, ?_⟩
  · unfold maximumAbsoluteValue
    rw [if_neg (by rw [h]; exact lt_irrefl _)]
  · unfold maximumAbsoluteValue
    rw [if_neg (not_lt.mpr h)]
  · unfold maximumAbsoluteValue
    rw [if_pos h]
  · unfold maximumAbsoluteValue
    rw [if_neg (by rw [abs_neg]; exact lt_irrefl _)]
  · unfold maximumAbsoluteValue
    rw [if_neg (by rw [abs_neg]; exact lt_irrefl _)]

/-- Witness for claim C9 at the concrete tie (2, -2). -/
theorem maximumAbsoluteValue_ties_take_second_witness :
    maximumAbsoluteValue (2 : ℝ) (-2) = -2 :=
  (maximumAbsoluteValue_ties_take_second 2 (-2)).1 (abs_neg (2 : ℝ)).symm

/-! Claims about the sigma-schedule generators. -/

/-- Claim C5, counterexample: with equal bounds and zero requested steps
the equispaced generator raises InvalidArgument instead of returning the
single-element schedule. -/
theorem sigma_equal_bounds_zero_steps_cex :
    generateEquispacedSigmaArray 5 5 0 ≠ Except.ok [(5 : ℝ)] := by
  intro h
  have herr : generateEquispacedSigmaArray 5 5 0
      = Except.error ItkError.invalidArgument := rfl
  rw [herr] at h
  exact Except.noConfusion h

/-- Claim C5 (amended): for every positive numberOfSteps, calling either
sigma-schedule generator with equal minimum and maximum returns the
single-element schedule holding that value; a zero-step request instead
fails, because the zero-step guard runs before the equal-bounds collapse. -/
theorem sigma_equal_bounds_single (s : ℝ) (n : ℕ) (hn : 1 ≤ n) :
    generateEquispacedSigmaArray s s n = Except.ok [s] ∧
      generateLogarithmicSigmaArray s s n = Except.ok [s] := by
  have hn0 : n ≠ 0 := Nat.one_le_iff_ne_zero.mp hn
  constructor
  · unfold generateEquispacedSigmaArray generateSigmaArray
    rw [if_neg hn0, if_pos rfl]
  · unfold generateLogarithmicSigmaArray generateSigmaArray
    rw [if_neg hn0, if_pos rfl]

/-- Witness for the amended claim C5 at bounds 1 and 100 steps, the case
exercised by the static-methods test. -/
theorem sigma_equal_bounds_single_witness :
    generateEquispacedSigmaArray 1 1 100 = Except.ok [(1 : ℝ)] ∧
      generateLogarithmicSigmaArray 1 1 100 = Except.ok [(1 : ℝ)] :=
  sigma_equal_bounds_single 1 100 (by norm_num)

/-- Claim C6: a zero-step request with bounds five and five raises
InvalidArgument in both the equispaced and the logarithmic generator. -/
theorem sigma_zero_steps_invalid_argument :
    generateEquispacedSigmaArray 5 5 0 = Except.error ItkError.invalidArgument ∧
      generateLogarithmicSigmaArray 5 5 0 = Except.error ItkError.invalidArgument :=
  ⟨rfl, rfl⟩

/-! Claims about the two measure functors. -/

/-- Bounds for the exponential factors of the Descoteaux measure: with a
nonnegative numerator and denominator the gaussian factor lies in (0, 1]
and its complement lies in [0, 1]. -/
theorem exp_guard_bounds (x y : ℝ) (hx : 0 ≤ x) (hy : 0 ≤ y) :
    Real.exp (-x / y) ≤ 1 ∧ 0 ≤ 1 - Real.exp (-x / y) ∧ 1 - Real.exp (-x / y) ≤ 1 := by
  have harg : -x / y ≤ 0 := by
    rw [neg_div]
    exact neg_nonpos.mpr (div_nonneg hx hy)
  have h1 : Real.exp (-x / y) ≤ 1 := Real.exp_le_one_iff.mpr harg
  exact ⟨h1, by linarith, by linarith [Real.exp_pos (-x / y)]⟩

/-- Claim C1: the Descoteaux sheet-blob-noise measure returns zero when the
direction disagrees with the sign of the dominant eigenvalue, returns zero
when the dominant magnitude is below the machine-epsilon guard, and
otherwise equals the product of the three gaussian factors built from
Rsheet, Rblob and Rnoise. -/
theorem descoteaux_measure_formula (d alpha beta c a1 a2 a3 : ℝ)
    (h12 : |a1| ≤ |a2|) (h23 : |a2| ≤ |a3|) :
    (d * a3 < 0 → descoteauxProcessPixel d alpha beta c a1 a2 a3 = 0) ∧
      (|a3| < itkEps → descoteauxProcessPixel d alpha beta c a1 a2 a3 = 0) ∧
      (0 ≤ d * a3 → itkEps ≤ |a3| →
        descoteauxProcessPixel d alpha beta c a1 a2 a3 =
          Real.exp (-((|a2| / |a3|) ^ 2) / (2 * alpha ^ 2)) *
            (1 - Real.exp (-((abs (2 * |a3| - |a2| - |a1|) / |a3|) ^ 2) / (2 * beta ^ 2))) *
            (1 - Real.exp (-(Real.sqrt (a1 ^ 2 + a2 ^ 2 + a3 ^ 2) ^ 2) / (2 * c ^ 2)))) := by
  refine ⟨fun h => ?_, fun h => ?_, fun hd he => ?_⟩
  · simp only [descoteauxProcessPixel]
    rw [if_pos h]
  · simp only [descoteauxProcessPixel]
    by_cases hd : d * a3 < 0
    · rw [if_pos hd]
    · rw [if_neg hd, if_pos h]
  · simp only [descoteauxProcessPixel]
    rw [if_neg (not_lt.mpr hd), if_neg (not_lt.mpr he)]
    simp only [pow_two, abs_mul_abs_self]
    ring_nf

/-- Witness for claim C1: with direction -1 opposing the positive dominant
eigenvalue of the triple (0, 1, 1), the measure is zero. -/
theorem descoteaux_measure_formula_witness :
    descoteauxProcessPixel (-1) 1 1 1 0 1 1 = 0 :=
  (descoteaux_measure_formula (-1) 1 1 1 0 1 1 (by simp) (le_refl _)).1 (by norm_num)

/-- Claim C10: for nonzero parameters the Descoteaux measure always lies in
the closed unit interval, each factor lying in [0, 1] and the gated
branches returning exactly zero. -/
theorem descoteaux_measure_bounded (d alpha beta c a1 a2 a3 : ℝ)
    (halpha : alpha ≠ 0) (hbeta : beta ≠ 0) (hc : c ≠ 0) :
    0 ≤ descoteauxProcessPixel d alpha beta c a1 a2 a3 ∧
      descoteauxProcessPixel d alpha beta c a1 a2 a3 ≤ 1 := by
  simp only [descoteauxProcessPixel]
  split_ifs with h1 h2
  · exact ⟨le_refl 0, zero_le_one⟩
  · exact ⟨le_refl 0, zero_le_one⟩
  · obtain ⟨e1le, -, -⟩ :=
      exp_guard_bounds (|a2| / |a3| * (|a2| / |a3|)) (2 * alpha * alpha)
        (mul_self_nonneg _) (by nlinarith [mul_self_nonneg alpha])
    obtain ⟨-, f2nn, f2le⟩ :=
      exp_guard_bounds
        (abs (2 * |a3| - |a2| - |a1|) / |a3| * (abs (2 * |a3| - |a2| - |a1|) / |a3|))
        (2 * beta * beta) (mul_self_nonneg _) (by nlinarith [mul_self_nonneg beta])
    obtain ⟨-, f3nn, f3le⟩ :=
      exp_guard_bounds
        (Real.sqrt (|a1| * |a1| + |a2| * |a2| + |a3| * |a3|) *
          Real.sqrt (|a1| * |a1| + |a2| * |a2| + |a3| * |a3|))
        (2 * c * c) (mul_self_nonneg _) (by nlinarith [mul_self_nonneg c])
    constructor
    · exact mul_nonneg (mul_nonneg (Real.exp_pos _).le f2nn) f3nn
    · exact mul_le_one₀ (mul_le_one₀ e1le f2nn f2le) f3nn f3le

/-- Witness for claim C10 at direction 1, unit parameters and the triple
(0, 1, 1). -/
theorem descoteaux_measure_bounded_witness :
    0 ≤ descoteauxProcessPixel 1 1 1 1 0 1 1 ∧
      descoteauxProcessPixel 1 1 1 1 0 1 1 ≤ 1 :=
  descoteaux_measure_bounded 1 1 1 1 0 1 1 one_ne_zero one_ne_zero one_ne_zero

/-- Claim C2: the Krcah sheet-tube-noise measure returns zero when the two
dominant magnitudes fall below the machine-epsilon guard and otherwise
equals direction times the sign of the dominant eigenvalue times the three
factors built from Rsheet, Rtube and Rnoise. -/
theorem krcah_measure_formula (d alpha beta gamma a1 a2 a3 : ℝ)
    (h12 : |a1| ≤ |a2|) (h23 : |a2| ≤ |a3|) :
    ((|a3| < itkEps ∨ |a2| < itkEps) →
        krcahProcessPixel d alpha beta gamma a1 a2 a3 = 0) ∧
      (itkEps ≤ |a3| → itkEps ≤ |a2| →
        krcahProcessPixel d alpha beta gamma a1 a2 a3 =
          d * Real.sign a3 * Real.exp (-((|a2| / |a3|) ^ 2) / alpha ^ 2) *
            Real.exp (-((|a1| / (|a2| * |a3|)) ^ 2) / beta ^ 2) *
            (1 - Real.exp (-((|a1| + |a2| + |a3|) ^ 2) / gamma ^ 2))) := by
  constructor
  · intro h
    simp only [krcahProcessPixel]
    rw [if_pos h]
  · intro h3 h2
    have hne : ¬(|a3| < itkEps ∨ |a2| < itkEps) := by
      push_neg
      exact ⟨h3, h2⟩
    have ha3 : a3 ≠ 0 := by
      intro h0
      rw [h0, abs_zero] at h3
      exact absurd h3 (not_le.mpr itkEps_pos)
    have hsign : a3 / |a3| = Real.sign a3 := by
      rcases ha3.lt_or_lt with hneg | hpos
      · rw [abs_of_neg hneg, Real.sign_of_neg hneg, div_neg, div_self ha3]
      · rw [abs_of_pos hpos, Real.sign_of_pos hpos, div_self ha3]
    simp only [krcahProcessPixel]
    rw [if_neg hne, mul_div_assoc, hsign]
    simp only [pow_two]

/-- Witness for claim C2: the all-zero eigenvalue triple falls under the
epsilon guard and the measure is zero. -/
theorem krcah_measure_formula_witness :
    krcahProcessPixel 1 1 1 1 0 0 0 = 0 :=
  (krcah_measure_formula 1 1 1 1 0 0 0 (le_refl _) (le_refl _)).1
    (Or.inl (by rw [abs_zero]; exact itkEps_pos))

/-! Claims about the parameter estimators and the masked measure filters. -/

/-- Characterization of a maximum fold seeded with NonpositiveMin over a
list of nonnegative values: the seed survives only on the empty list. -/
theorem foldl_max_npmin_eq (ys : List ℝ) (hnn : ∀ y ∈ ys, 0 ≤ y) :
    ys.foldl max nonpositiveMin
      = if ys.length = 0 then nonpositiveMin else ys.foldr max 0 := by
  rcases ys with _ | ⟨y, t⟩
  · simp
  · rw [if_neg (by simp), foldl_max_eq_foldr]
    exact foldr_max_base_change (y :: t) nonpositiveMin 0 (by simp)
      (fun x hx => nonpositiveMin_neg.le.trans (hnn x hx))
      (fun x hx => hnn x hx)

/-- Claim C3, counterexample: on an empty voxel population with the default
weight one half, the deprecated EigenToScalar Frobenius estimator leaves c
at the weight instead of returning zero. -/
theorem descoteaux_scalar_estimator_empty_c :
    (descoteauxScalarEstimateParameters (P := Unit) (L := Bool) (1 / 2) none false
        []).2.2 ≠ 0 := by
  simp only [descoteauxScalarEstimateParameters, descoteauxScalarMaxFrobeniusNorm,
    List.foldl_nil]
  rw [if_neg (lt_irrefl 0)]
  norm_num

/-- Claim C3 (amended): the EigenToMeasure Frobenius estimator returns
alpha and beta one half and c equal to the weight times the maximum
included Frobenius norm, with c zero when no voxels are included; the
deprecated EigenToScalar estimator returns the weighted maximum only when
the maximum norm is positive and otherwise falls back to c equal to the
weight itself, not zero. -/
theorem descoteaux_frobenius_estimators {P L : Type} [DecidableEq L] (w : ℝ)
    (mask : Option (P → Bool)) (voxels : List (P × (ℝ × ℝ × ℝ)))
    (lmask : Option (P → L)) (bg : L) (lvoxels : List (P × (ℝ × ℝ × ℝ))) :
    descoteauxEstimateParameters w mask voxels =
        (0.5, 0.5,
          if (voxels.filter fun v => spatialIncluded mask v.1).length = 0 then 0
          else
            w * (((voxels.filter fun v => spatialIncluded mask v.1).map
                (fun v => frobeniusNorm v.2)).foldr max 0)) ∧
      descoteauxScalarEstimateParameters w lmask bg lvoxels =
        (0.5, 0.5,
          if ((lvoxels.filter fun v => labelIncluded lmask bg v.1).map
              (fun v => frobeniusNorm v.2)).foldr max 0 > 0 then
            w * (((lvoxels.filter fun v => labelIncluded lmask bg v.1).map
                (fun v => frobeniusNorm v.2)).foldr max 0)
          else w) := by
  constructor
  · have hfold : descoteauxMaxFrobeniusNorm mask voxels
        = ((voxels.filter fun v => spatialIncluded mask v.1).map
            (fun v => frobeniusNorm v.2)).foldl max nonpositiveMin :=
      foldl_guarded_max _ _ _ _
    have hnn : ∀ y ∈ (voxels.filter fun v => spatialIncluded mask v.1).map
        (fun v => frobeniusNorm v.2), 0 ≤ y := by
      intro y hy
      rcases List.mem_map.mp hy with ⟨v, -, rfl⟩
      exact Real.sqrt_nonneg _
    simp only [descoteauxEstimateParameters]
    rw [hfold, foldl_max_npmin_eq _ hnn, List.length_map]
    by_cases hlen : (voxels.filter fun v => spatialIncluded mask v.1).length = 0
    · rw [if_pos hlen, if_pos hlen, if_neg (not_lt.mpr nonpositiveMin_neg.le)]
    · rw [if_neg hlen, if_neg hlen]
      by_cases hMpos : ((voxels.filter fun v => spatialIncluded mask v.1).map
          (fun v => frobeniusNorm v.2)).foldr max 0 > 0
      · rw [if_pos hMpos]
      · rw [if_neg hMpos,
          le_antisymm (not_lt.mp hMpos) (le_foldr_max 0 _), mul_zero]
  · have hfold : descoteauxScalarMaxFrobeniusNorm lmask bg lvoxels
        = ((lvoxels.filter fun v => labelIncluded lmask bg v.1).map
            (fun v => frobeniusNorm v.2)).foldl max 0 :=
      foldl_guarded_if_max _ _ _ _
    simp only [descoteauxScalarEstimateParameters]
    rw [hfold, foldl_max_eq_foldr]

/-- Claim C4: the Krcah trace estimator returns alpha, beta and gamma equal
to sqrt two times one half in implementation mode, scaling gamma by the
average absolute-eigenvalue sum over the included voxels; in journal mode
it returns one half, one half and a quarter scaled by the average signed
sum; in both modes gamma is zero when no voxels are included. -/
theorem krcah_trace_estimator_modes {P : Type} (mask : Option (P → Bool))
    (voxels : List (P × (ℝ × ℝ × ℝ))) :
    krcahEstimateParameters .useImplementationParameters mask voxels =
        (sqrt2 * 0.5, sqrt2 * 0.5,
          if (voxels.filter fun v => spatialIncluded mask v.1).length = 0 then 0
          else
            sqrt2 * 0.5 *
              (((voxels.filter fun v => spatialIncluded mask v.1).map
                  (fun v => |v.2.1| + |v.2.2.1| + |v.2.2.2|)).sum /
                ((voxels.filter fun v => spatialIncluded mask v.1).length : ℝ))) ∧
      krcahEstimateParameters .useJournalParameters mask voxels =
        (0.5, 0.5,
          if (voxels.filter fun v => spatialIncluded mask v.1).length = 0 then 0
          else
            0.25 *
              (((voxels.filter fun v => spatialIncluded mask v.1).map
                  (fun v => v.2.1 + v.2.2.1 + v.2.2.2)).sum /
                ((voxels.filter fun v => spatialIncluded mask v.1).length : ℝ))) := by
  have haccum : ∀ s : KrcahParameterSet, krcahAccumulateTrace s mask voxels
      = (((voxels.filter fun v => spatialIncluded mask v.1).map
            (fun v => krcahTraceFunction s v.2)).sum,
          ((voxels.filter fun v => spatialIncluded mask v.1).length : ℝ)) := by
    intro s
    have h := foldl_guarded_sum_count (fun v => spatialIncluded mask v.1)
      (fun v => krcahTraceFunction s v.2) voxels (0, 0)
    simpa [krcahAccumulateTrace] using h
  constructor
  · simp only [krcahEstimateParameters, haccum]
    by_cases hlen : (voxels.filter fun v => spatialIncluded mask v.1).length = 0
    · rw [if_pos hlen, hlen]
      norm_num
    · rw [if_neg hlen,
        if_pos (by exact_mod_cast Nat.pos_of_ne_zero hlen :
          (0 : ℝ) < ((voxels.filter fun v => spatialIncluded mask v.1).length : ℝ))]
      simp only [krcahTraceFunction, calculateTraceAccordingToImplementation]
  · simp only [krcahEstimateParameters, haccum]
    by_cases hlen : (voxels.filter fun v => spatialIncluded mask v.1).length = 0
    · rw [if_pos hlen, hlen]
      norm_num
    · rw [if_neg hlen,
        if_pos (by exact_mod_cast Nat.pos_of_ne_zero hlen :
          (0 : ℝ) < ((voxels.filter fun v => spatialIncluded mask v.1).length : ℝ))]
      simp only [krcahTraceFunction, calculateTraceAccordingToJournalArticle]

/-- Claim C8: when a mask is supplied, every voxel outside the mask
receives exactly zero in the response of both the Descoteaux and the Krcah
measure filters, regardless of its eigenvalues and parameters. -/
theorem measure_filters_mask_zero {P : Type} (d a b c e f g k : ℝ)
    (m : P → Bool) (voxels : List (P × (ℝ × ℝ × ℝ))) (i : ℕ)
    (hi : i < voxels.length) (hm : m (voxels[i]).1 = false) :
    (descoteauxMeasureImage d a b c (some m) voxels)[i]? = some 0 ∧
      (krcahMeasureImage e f g k (some m) voxels)[i]? = some 0 := by
  have hv : voxels[i]? = some voxels[i] := List.getElem?_eq_getElem hi
  constructor
  · unfold descoteauxMeasureImage
    rw [List.getElem?_map, hv]
    simp [show spatialIncluded (some m) (voxels[i]).1 = false from hm]
  · unfold krcahMeasureImage
    rw [List.getElem?_map, hv]
    simp [show spatialIncluded (some m) (voxels[i]).1 = false from hm]

/-- Witness for claim C8: a one-voxel image with an all-excluding mask
receives the zero response in both filters. -/
theorem measure_filters_mask_zero_witness :
    (descoteauxMeasureImage 1 1 1 1 (some fun _ => false)
        [((0 : ℕ), ((1 : ℝ), 2, 3))])[0]? = some (0 : ℝ) ∧
      (krcahMeasureImage 1 1 1 1 (some fun _ => false)
        [((0 : ℕ), ((1 : ℝ), 2, 3))])[0]? = some (0 : ℝ) :=
  measure_filters_mask_zero 1 1 1 1 1 1 1 1 (fun _ => false)
    [((0 : ℕ), ((1 : ℝ), 2, 3))] 0 (by simp) rfl
